import Mathlib

/-
Verification of the werlang/helper-package WebSocket RPC layer.

The development shallowly embeds:
  - JavaScript values exchanged over the wire (JSVal), with undefined as a
    first-class value, and the JSON.stringify/JSON.parse round trip as a
    normalization function (undefined-valued object fields are dropped,
    undefined array elements become null);
  - the server dispatch (WSServer.handleMessage, src/driver/wsserver.js):
    a pure function from a method table and a parse result to the list of
    frames written back, or to an uncaught exception (destructuring a
    parsed null throws a TypeError outside the try/catch); the truthy
    method lookup includes the prototype chain of the plain object
    literal holding the registrations;
  - the client listener registry and its frame dispatch loop
    (WSClient, the refined version with removeListener/close): listeners
    are identity-tagged step functions that throw on frames parsing to
    null (their destructuring sits outside their try/catch), dispatch
    iterates a snapshot of the registry, catches listener exceptions,
    and threads removals;
  - the client connection lifecycle (connect/open/close/error events,
    reconnect timers, the close() call) as an explicit state machine;
  - the Pledge helper (helper/pledge.js): settlement fates with times,
    the timeout race and the static all combinator.
-/

/-- JavaScript values as seen by this protocol layer. Numbers are modelled
as integers: the code never computes with numeric payloads, and float
behavior is out of scope. The undefined constructor is the JavaScript
undefined value, which is not itself a JSON value but arises from absent
fields and is dropped or nulled by serialization. -/
inductive JSVal : Type
  | undefined
  | jnull
  | jbool (b : Bool)
  | jnum (n : Int)
  | jstr (s : String)
  | jarr (elems : List JSVal)
  | jobj (fields : List (String × JSVal))

/-- Test for the undefined value. -/
def JSVal.isUndefined : JSVal → Bool
  | .undefined => true
  | _ => false

/-- JavaScript property access on a value, as performed by destructuring an
object that is neither null nor undefined: own field lookup on objects,
undefined on every other value and on absent keys. -/
def getField (v : JSVal) (k : String) : JSVal :=
  match v with
  | .jobj fs =>
    match fs.find? (fun p => p.1 == k) with
    | some p => p.2
    | none => .undefined
  | _ => .undefined

mutual
/-- One round of JSON.stringify followed by JSON.parse on a value sitting
in serializable position: object fields keep their order, arrays and
objects are rewritten recursively. -/
def normVal : JSVal → JSVal
  | .jarr xs => .jarr (normList xs)
  | .jobj fs => .jobj (normFields fs)
  | v => v

/-- JSON serialization of array elements: an undefined element is written
as null, every other element is serialized recursively. -/
def normList : List JSVal → List JSVal
  | [] => []
  | x :: xs => (if x.isUndefined then .jnull else normVal x) :: normList xs

/-- JSON serialization of object fields: a field whose value is undefined
is dropped, every other field is kept and serialized recursively. -/
def normFields : List (String × JSVal) → List (String × JSVal)
  | [] => []
  | (k, v) :: fs =>
    if v.isUndefined then normFields fs else (k, normVal v) :: normFields fs
end

/-- Effect of JSON round-tripping a value in top-level payload position of
an envelope field: an undefined payload is dropped on serialization and
read back as undefined, everything else is normalized. -/
def normTop (v : JSVal) : JSVal :=
  if v.isUndefined then .undefined else normVal v

/-- Top-level keys of an object value. -/
def objKeys : JSVal → List String
  | .jobj fs => fs.map (fun p => p.1)
  | _ => []

/- ### Server: WSServer (src/driver/wsserver.js) -/

/-- Observable outcome of invoking a registered handler on a payload:
the data values it passed to the reply callback, in order, and whether
the invocation raised after those replies. -/
structure HandlerOutcome where
  replies : List JSVal
  throws : Bool

/-- A server method handler, abstracted to its observable outcome. -/
abbrev Handler := JSVal → HandlerOutcome

/-- The method table: this.methodList. Registration conses at the head, so
lookup from the head makes the last registration win, matching property
assignment on a plain object. -/
abbrev MethodTable := List (String × Handler)

/-- Own-property lookup among the registrations performed through on. -/
def lookupMethod : MethodTable → String → Option Handler
  | [], _ => none
  | (k, h) :: tl, m => if k == m then some h else lookupMethod tl m

/-- WSServer.on: this.methodList[method] = callback. Registration under the
name __proto__ is assumed not to occur: in JavaScript that assignment would
rewire the prototype of the table instead of creating an own property. -/
def serverOn (tbl : MethodTable) (method : String) (h : Handler) : MethodTable :=
  (method, h) :: tbl

/-- Names of the function-valued properties every plain object literal
inherits from Object.prototype. For an unregistered method carrying one of
these names, this.methodList[method] is a truthy inherited function. -/
def protoFunctionNames : List String :=
  ["constructor", "hasOwnProperty", "isPrototypeOf", "propertyIsEnumerable",
    "toLocaleString", "toString", "valueOf", "__defineGetter__",
    "__defineSetter__", "__lookupGetter__", "__lookupSetter__"]

/-- Result of the property access this.methodList[method] on the plain
object literal holding the registrations, prototype chain included. -/
inductive MethodLookup
  | registered (h : Handler)
  | inheritedFunction
  | inheritedNonFunction
  | absent

/-- The access this.methodList[method]: an own property registered through
on shadows everything; otherwise a name of an Object.prototype function
yields a truthy inherited function, which the dispatch invokes with the
payload and the reply callback; it calls neither and does not throw for
any JSON-parsed payload, so it sends nothing (any exotic side effects of
the legacy accessor-definition helpers are beyond the claims and not
modelled); the name __proto__ yields Object.prototype itself, truthy but
not callable, so invoking it throws; every other name reads as undefined,
which is falsy. -/
def methodListGet (tbl : MethodTable) (m : String) : MethodLookup :=
  match lookupMethod tbl m with
  | some h => .registered h
  | none =>
    if protoFunctionNames.contains m then .inheritedFunction
    else if m == "__proto__" then .inheritedNonFunction
    else .absent

/-- The error reply envelope built by handleMessage:
an object with fields error, message, id in source order. -/
def errorFrame (msg : String) (id : JSVal) : JSVal :=
  .jobj [("error", .jbool true), ("message", .jstr msg), ("id", id)]

/-- The success reply envelope built by the reply callback:
an object with fields id, data in source order. -/
def successFrame (id data : JSVal) : JSVal :=
  .jobj [("id", id), ("data", data)]

/-- The guard !method || typeof method !== a string: true exactly when the
destructured method is not a nonempty string (the empty string is the one
falsy string). -/
def methodCheckFails : JSVal → Bool
  | .jstr s => s == ""
  | _ => true

/-- String content of the method field once the guard has passed. -/
def methodName : JSVal → String
  | .jstr s => s
  | _ => ""

/-- Values on which object destructuring throws a TypeError: null and
undefined. JSON.parse never yields undefined, but null is reachable. -/
def destructureThrows : JSVal → Bool
  | .jnull => true
  | .undefined => true
  | _ => false

/-- WSServer.handleMessage. The inbound text is given by its parse result:
none models a JSON.parse failure caught by the try/catch. Destructuring a
parsed null (or undefined) throws a TypeError outside any try/catch,
modelled as Except.error. Otherwise the returned list is the sequence of
frames written to the connection, in order. -/
def handleMessage (tbl : MethodTable) (message : Option JSVal) :
    Except Unit (List JSVal) :=
  match message with
  | none => .ok [errorFrame "Malformed JSON" .undefined]
  | some parsed =>
    if destructureThrows parsed then .error () else
    let method := getField parsed "method"
    let payload := getField parsed "payload"
    let id := getField parsed "id"
    if methodCheckFails method then
      .ok [errorFrame "Missing or invalid method" id]
    else
      match methodListGet tbl (methodName method) with
      | .registered h =>
        let o := h payload
        .ok (o.replies.map (successFrame id) ++
          (if o.throws then [errorFrame "Method handler error" id] else []))
      | .inheritedFunction => .ok []
      | .inheritedNonFunction => .ok [errorFrame "Method handler error" id]
      | .absent => .ok [errorFrame "Method not found" id]

/-- The id a reply will echo: undefined on a parse failure, else the id
field of the parsed frame. -/
def parsedId : Option JSVal → JSVal
  | none => .undefined
  | some v => getField v "id"

/-- Recognizer for the error form of a reply envelope. -/
def isErrorEnvelope : JSVal → Bool
  | .jobj (("error", .jbool true) :: _) => true
  | _ => false

/- ### Client: WSClient (refined version with removeListener and close) -/

/-- Observable effects of dispatching one frame to the client listeners. -/
inductive Effect
  | resolved (messageId : String) (data : JSVal)
  | streamed (messageId : String) (data : JSVal)
  | loggedError

/-- Result of invoking one message listener on one frame: either a normal
return carrying its effects and whether it removed itself from the
registry, or a raise carrying the effects produced before the raise. -/
inductive LStep
  | ok (effects : List Effect) (removeSelf : Bool)
  | thrown (effects : List Effect)

/-- A message listener, keyed later by a closure-identity token. The frame
is given by its parse result; none models event data that is not JSON. -/
abbrev Listener := Option JSVal → LStep

/-- Strict equality responseId === messageId between a frame field and the
string message id held by the request closure. -/
def jsIdEq (v : JSVal) (s : String) : Bool :=
  match v with
  | .jstr t => t == s
  | _ => false

/-- The request envelope serialized by WSClient._send. -/
def requestEnvelope (msgId method : String) (payload : JSVal) : JSVal :=
  .jobj [("id", .jstr msgId), ("method", .jstr method), ("payload", payload)]

/-- The one-shot listener registered by WSClient.send: on a parse failure
it returns; its destructuring of the parse result sits outside the
try/catch, so a frame parsing to null throws a TypeError out of the
listener; on a frame whose id strictly equals the message id it resolves
the pending promise with the data field and removes itself. -/
def sendListener (messageId : String) : Listener := fun frame =>
  match frame with
  | none => .ok [] false
  | some v =>
    if destructureThrows v then .thrown []
    else if jsIdEq (getField v "id") messageId then
      .ok [.resolved messageId (getField v "data")] true
    else
      .ok [] false

/-- The persistent listener registered by WSClient.stream: it invokes the
callback with the data field of every frame sharing the message id and
never removes itself; like the send listener, it throws out of its body
on a frame parsing to null. -/
def streamListener (messageId : String) : Listener := fun frame =>
  match frame with
  | none => .ok [] false
  | some v =>
    if destructureThrows v then .thrown []
    else if jsIdEq (getField v "id") messageId then
      .ok [.streamed messageId (getField v "data")] false
    else
      .ok [] false

/-- The client listener registry this.onMessageListeners. The Nat token
models closure identity, used by removeListener filtering. -/
abbrev Registry := List (Nat × Listener)

/-- WSClient.removeListener: filter by closure identity. -/
def removeListenerId (reg : Registry) (i : Nat) : Registry :=
  reg.filter (fun p => p.1 != i)

/-- The onmessage dispatch loop: iterate over a snapshot of the registry,
invoke each listener inside a try/catch (a raise is logged and does not
stop the loop), and thread removals through the live registry, which
removeListener reassigns while forEach keeps walking the snapshot. -/
def runListeners : Registry → Option JSVal → Registry → Registry × List Effect
  | [], _, reg => (reg, [])
  | (i, l) :: rest, frame, reg =>
    match l frame with
    | .ok effs rm =>
      let reg2 := if rm then removeListenerId reg i else reg
      let res := runListeners rest frame reg2
      (res.1, effs ++ res.2)
    | .thrown effs =>
      let res := runListeners rest frame reg
      (res.1, effs ++ [.loggedError] ++ res.2)

/-- Dispatch of one inbound frame: the snapshot and the live registry start
equal. Returns the registry after dispatch and the effects in order. -/
def dispatchFrame (reg : Registry) (frame : Option JSVal) :
    Registry × List Effect :=
  runListeners reg frame reg

/-- Effects contributed by a single listener invocation, with the logged
error appended when the listener raises. -/
def stepEffects (frame : Option JSVal) (l : Listener) : List Effect :=
  match l frame with
  | .ok effs _ => effs
  | .thrown effs => effs ++ [.loggedError]

/- ### Client connection lifecycle (connect, reconnect timers, close) -/

/-- Client lifecycle state: the configuration flag this.reconnect, the
mutable flags _shouldReconnect, _isConnecting, isOpen, a count of sockets
created by new WebSocket, and the number of reconnect timers pending. -/
structure WSClientState where
  reconnectCfg : Bool
  shouldReconnect : Bool
  isConnecting : Bool
  isOpen : Bool
  socketsCreated : Nat
  pendingTimers : Nat
deriving DecidableEq

/-- Lifecycle events: a direct connect() call, the transport open, close
and error events, a scheduled reconnect timer firing, and the public
close() call. -/
inductive WSEvent
  | connectStart
  | socketOpen
  | socketClose
  | socketError
  | timerFire
  | closeCall
deriving DecidableEq

/-- Body of connect(): return early when a connect is in flight, otherwise
mark connecting, reset _shouldReconnect from the configuration, and create
a new socket. -/
def connectStep (s : WSClientState) : WSClientState :=
  if s.isConnecting then s
  else { s with
    isConnecting := true
    shouldReconnect := s.reconnectCfg
    isOpen := false
    socketsCreated := s.socketsCreated + 1 }

/-- One lifecycle transition, read off the event handlers installed by
connect(), the open() continuation, the timer callbacks and close(). -/
def stepEvent (s : WSClientState) : WSEvent → WSClientState
  | .connectStart => connectStep s
  | .socketOpen => { s with isOpen := true, isConnecting := false }
  | .socketClose =>
    { s with
      isOpen := false
      pendingTimers := s.pendingTimers + (if s.shouldReconnect then 1 else 0) }
  | .socketError =>
    { s with
      isOpen := false
      isConnecting := false
      pendingTimers := s.pendingTimers + (if s.shouldReconnect then 1 else 0) }
  | .timerFire =>
    if s.pendingTimers = 0 then s
    else connectStep { s with pendingTimers := s.pendingTimers - 1 }
  | .closeCall => { s with shouldReconnect := false }

/-- Run a sequence of lifecycle events. -/
def runEvents (s : WSClientState) : List WSEvent → WSClientState
  | [] => s
  | e :: es => runEvents (stepEvent s e) es

/-- State set up by the constructor body before it invokes connect(). -/
def initState (reconnectCfg : Bool) : WSClientState :=
  { reconnectCfg := reconnectCfg
    shouldReconnect := true
    isConnecting := false
    isOpen := false
    socketsCreated := 0
    pendingTimers := 0 }

/- ### Pledge (helper/pledge.js) -/

/-- Settled outcome of a promise: a fulfillment value or a rejection
reason. Error objects are modelled by their message string. -/
inductive POutcome
  | value (v : JSVal)
  | rejection (e : JSVal)

/-- Fate of a pledge: the time at which its promise settles and the
outcome, or none when it never settles. -/
abbrev PledgeFate := Option (Nat × POutcome)

/-- The rejection reason produced by the timeout timer. -/
def timeoutError : JSVal := .jstr "Request Timeout"

/-- Pledge.timeout: Promise.race between the pledge promise and a timer
that rejects with the timeout error after the given duration. The earlier
settlement wins; a settlement not strictly earlier than the timer loses
to it. -/
def pledgeTimeout (fate : PledgeFate) (duration : Nat) : Nat × POutcome :=
  match fate with
  | some (t, r) =>
    if t < duration then (t, r) else (duration, .rejection timeoutError)
  | none => (duration, .rejection timeoutError)

/-- An argument to Pledge.all: a pledge, mapped to item.get(), or a plain
value, which Promise.all treats as already fulfilled. -/
inductive AllItem
  | pledge (fate : PledgeFate)
  | plain (v : JSVal)

/-- Fate of one Pledge.all argument: plain values are fulfilled at once. -/
def itemFate : AllItem → PledgeFate
  | .pledge f => f
  | .plain v => some (0, .value v)

/-- Rejection times and reasons among the arguments, in input order. -/
def rejectionsOf : List AllItem → List (Nat × JSVal)
  | [] => []
  | it :: rest =>
    match itemFate it with
    | some (t, .rejection e) => (t, e) :: rejectionsOf rest
    | _ => rejectionsOf rest

/-- Earliest element by time; ties keep the earlier list position. -/
def earliest : List (Nat × JSVal) → Option (Nat × JSVal)
  | [] => none
  | x :: xs =>
    match earliest xs with
    | none => some x
    | some y => if y.1 < x.1 then some y else some x

/-- Fulfillment times and values of the arguments, in input order; none
when some argument rejects or never settles. -/
def valuesOf : List AllItem → Option (List (Nat × JSVal))
  | [] => some []
  | it :: rest =>
    match itemFate it with
    | some (t, .value v) => (valuesOf rest).map (fun l => (t, v) :: l)
    | _ => none

/-- Latest fulfillment time of a settled argument list. -/
def latestTime (l : List (Nat × JSVal)) : Nat :=
  l.foldr (fun x acc => max x.1 acc) 0

/-- Pledge.all, that is Promise.all over the mapped arguments: it rejects
at the first rejection in time with that reason, fulfills with the values
in input order once every argument fulfills, and otherwise never
settles. -/
def pledgeAll (items : List AllItem) : Option (Nat × Except JSVal (List JSVal)) :=
  match earliest (rejectionsOf items) with
  | some (t, e) => some (t, .error e)
  | none =>
    match valuesOf items with
    | some tvs => some (latestTime tvs, .ok (tvs.map (fun p => p.2)))
    | none => none

/-- Fulfillment value of an argument known to fulfill. -/
def fulfilledValue (it : AllItem) : JSVal :=
  match itemFate it with
  | some (_, .value v) => v
  | _ => .undefined

/- ### End-to-end pipeline helpers -/

/-- Deliver a list of server reply frames to a client registry: each frame
crosses the wire (JSON round trip) and is dispatched to the listeners. -/
def deliverAll (reg : Registry) : List JSVal → Registry × List Effect
  | [] => (reg, [])
  | f :: fs =>
    let step := dispatchFrame reg (some (normVal f))
    let rest := deliverAll step.1 fs
    (rest.1, step.2 ++ rest.2)

/-- The echo handler of the round-trip property: it replies once with the
payload it received. -/
def echoHandler : Handler := fun payload => ⟨[payload], false⟩

/-- Full round trip of request(echo, p): the client serializes the request
envelope, the server parses and dispatches it to the echo handler, and
every reply frame is serialized back and dispatched to a registry holding
only the pending request listener. -/
def echoRoundTrip (msgId : String) (p : JSVal) : Registry × List Effect :=
  match handleMessage [("echo", echoHandler)]
      (some (normVal (requestEnvelope msgId "echo" p))) with
  | .error _ => ([(0, sendListener msgId)], [])
  | .ok frames => deliverAll [(0, sendListener msgId)] frames

/- ### Basic lemmas about JSON normalization -/

/-- Normalization never produces the undefined value from a defined one. -/
theorem normValNotUndefined (v : JSVal) (hv : v.isUndefined = false) :
    (normVal v).isUndefined = false := by
  cases v <;> simp_all [JSVal.isUndefined, normVal]

mutual
/-- JSON round-tripping is idempotent on values. -/
theorem normVal_idem : ∀ (v : JSVal), normVal (normVal v) = normVal v
  | .undefined => rfl
  | .jnull => rfl
  | .jbool _ => rfl
  | .jnum _ => rfl
  | .jstr _ => rfl
  | .jarr xs => congrArg JSVal.jarr (normList_idem xs)
  | .jobj fs => congrArg JSVal.jobj (normFields_idem fs)

/-- JSON round-tripping is idempotent on array element lists. -/
theorem normList_idem : ∀ (xs : List JSVal), normList (normList xs) = normList xs
  | [] => rfl
  | .undefined :: xs => by
    simp [normList, normVal, JSVal.isUndefined, normList_idem xs]
  | .jnull :: xs => by
    simp [normList, normVal, JSVal.isUndefined, normList_idem xs]
  | .jbool b :: xs => by
    simp [normList, normVal, JSVal.isUndefined, normList_idem xs]
  | .jnum n :: xs => by
    simp [normList, normVal, JSVal.isUndefined, normList_idem xs]
  | .jstr s :: xs => by
    simp [normList, normVal, JSVal.isUndefined, normList_idem xs]
  | .jarr ys :: xs => by
    simp [normList, normVal, JSVal.isUndefined, normList_idem xs, normList_idem ys]
  | .jobj fs :: xs => by
    simp [normList, normVal, JSVal.isUndefined, normList_idem xs, normFields_idem fs]

/-- JSON round-tripping is idempotent on object field lists. -/
theorem normFields_idem :
    ∀ (fs : List (String × JSVal)), normFields (normFields fs) = normFields fs
  | [] => rfl
  | (k, .undefined) :: fs => by
    simp [normFields, normVal, JSVal.isUndefined, normFields_idem fs]
  | (k, .jnull) :: fs => by
    simp [normFields, normVal, JSVal.isUndefined, normFields_idem fs]
  | (k, .jbool b) :: fs => by
    simp [normFields, normVal, JSVal.isUndefined, normFields_idem fs]
  | (k, .jnum n) :: fs => by
    simp [normFields, normVal, JSVal.isUndefined, normFields_idem fs]
  | (k, .jstr s) :: fs => by
    simp [normFields, normVal, JSVal.isUndefined, normFields_idem fs]
  | (k, .jarr ys) :: fs => by
    simp [normFields, normVal, JSVal.isUndefined, normFields_idem fs, normList_idem ys]
  | (k, .jobj gs) :: fs => by
    simp [normFields, normVal, JSVal.isUndefined, normFields_idem fs, normFields_idem gs]
end

/-- The top-level payload round trip is idempotent. -/
theorem normTop_idem (v : JSVal) : normTop (normTop v) = normTop v := by
  cases hv : v.isUndefined with
  | false => simp [normTop, hv, normValNotUndefined v hv, normVal_idem]
  | true =>
    have hu : v = .undefined := by cases v <;> simp_all [JSVal.isUndefined]
    subst hu
    rfl

/- ### Claim C8: Pledge.timeout race -/

/-- C8: for every pledge and duration, timeout produces the pledge value
when it resolves strictly before the duration elapses, propagates the
rejection reason when it rejects strictly before, and rejects with the
Request Timeout error when the duration elapses first (the pledge settles
no earlier, or never), the outcome being exactly one of the two arms. -/
theorem claim8_timeout_race (fate : PledgeFate) (T t : Nat) (v e : JSVal) :
    (fate = some (t, POutcome.value v) → t < T →
      pledgeTimeout fate T = (t, POutcome.value v))
    ∧ (fate = some (t, POutcome.rejection e) → t < T →
      pledgeTimeout fate T = (t, POutcome.rejection e))
    ∧ (fate = none → pledgeTimeout fate T = (T, POutcome.rejection timeoutError))
    ∧ ((∀ t2 r, fate = some (t2, r) → T ≤ t2) →
      pledgeTimeout fate T = (T, POutcome.rejection timeoutError))
    ∧ (pledgeTimeout fate T = (T, POutcome.rejection timeoutError)
      ∨ ∃ t2 r, fate = some (t2, r) ∧ t2 < T ∧ pledgeTimeout fate T = (t2, r)) := by
  refine ⟨?_, ?_, ?_, ?_, ?_⟩
  · intro hf ht
    subst hf
    simp [pledgeTimeout, ht]
  · intro hf ht
    subst hf
    simp [pledgeTimeout, ht]
  · intro hf
    subst hf
    rfl
  · intro hlate
    match hf : fate with
    | none => rfl
    | some (t2, r) =>
      have := hlate t2 r rfl
      simp [pledgeTimeout, Nat.not_lt.mpr this]
  · match hf : fate with
    | none => exact Or.inl rfl
    | some (t2, r) =>
      by_cases ht : t2 < T
      · exact Or.inr ⟨t2, r, rfl, ht, by simp [pledgeTimeout, ht]⟩
      · exact Or.inl (by simp [pledgeTimeout, ht])

/-- C8 witness: at concrete inputs, a pledge resolving at time 2 beats a
timeout of 5, and a pledge settling at time 9 loses to it. -/
theorem claim8_witness :
    pledgeTimeout (some (2, POutcome.value JSVal.jnull)) 5
      = (2, POutcome.value JSVal.jnull)
    ∧ pledgeTimeout (some (9, POutcome.value JSVal.jnull)) 5
      = (5, POutcome.rejection timeoutError) := by
  constructor
  · exact (claim8_timeout_race (some (2, POutcome.value JSVal.jnull)) 5 2
      JSVal.jnull JSVal.jnull).1 rfl (by decide)
  · exact (claim8_timeout_race (some (9, POutcome.value JSVal.jnull)) 5 9
      JSVal.jnull JSVal.jnull).2.2.2.1
      (by intro t2 r h; cases h; decide)

/- ### Claim C6: reconnection after close -/

/-- C6 evaluation: from a freshly constructed client with reconnect
enabled, after a successful connect and open, a transport close schedules
a reconnect timer; a close() call then clears the reconnect flag while the
timer stays pending, and when that timer fires, connect() runs anyway,
creates a second socket, and even re-enables the reconnect flag. -/
theorem claim6_reconnect_after_close_bug :
    (runEvents (initState true)
        [WSEvent.connectStart, WSEvent.socketOpen, WSEvent.socketClose,
          WSEvent.closeCall]).socketsCreated = 1
    ∧ (runEvents (initState true)
        [WSEvent.connectStart, WSEvent.socketOpen, WSEvent.socketClose,
          WSEvent.closeCall]).pendingTimers = 1
    ∧ (runEvents (initState true)
        [WSEvent.connectStart, WSEvent.socketOpen, WSEvent.socketClose,
          WSEvent.closeCall]).shouldReconnect = false
    ∧ (runEvents (initState true)
        [WSEvent.connectStart, WSEvent.socketOpen, WSEvent.socketClose,
          WSEvent.closeCall, WSEvent.timerFire]).socketsCreated = 2
    ∧ (runEvents (initState true)
        [WSEvent.connectStart, WSEvent.socketOpen, WSEvent.socketClose,
          WSEvent.closeCall, WSEvent.timerFire]).shouldReconnect = true := by
  refine ⟨rfl, rfl, rfl, rfl, rfl⟩

/- ### Claim C4: request registers a one-shot listener -/

/-- A frame whose id field strictly equals a string is an object, so its
destructuring cannot throw. -/
theorem destructure_ok_of_match (v : JSVal) (s : String)
    (h : jsIdEq (getField v "id") s = true) : destructureThrows v = false := by
  cases v <;> simp_all [jsIdEq, getField, destructureThrows]

/-- C4: a pending request listener resolves the promise with the data
field of the first frame whose id strictly equals its message id and
removes itself from the registry; a frame with a different id that parses
to a destructurable value leaves it untouched; a frame parsing to null
makes the listener throw, which the dispatch loop only logs, leaving the
listener registered and the promise pending; and once removed, later
frames invoke no remaining per-request listener. -/
theorem claim4_request_one_shot (k : Nat) (msgId : String) (f g n f2 : JSVal) :
    (jsIdEq (getField f "id") msgId = true →
      dispatchFrame [(k, sendListener msgId)] (some f)
        = ([], [Effect.resolved msgId (getField f "data")]))
    ∧ (jsIdEq (getField g "id") msgId = false → destructureThrows g = false →
      dispatchFrame [(k, sendListener msgId)] (some g)
        = ([(k, sendListener msgId)], []))
    ∧ (destructureThrows n = true →
      dispatchFrame [(k, sendListener msgId)] (some n)
        = ([(k, sendListener msgId)], [Effect.loggedError]))
    ∧ dispatchFrame [] (some f2) = ([], []) := by
  refine ⟨?_, ?_, ?_, rfl⟩
  · intro hmatch
    have hdt := destructure_ok_of_match f msgId hmatch
    simp [dispatchFrame, runListeners, sendListener, hmatch, hdt,
      removeListenerId, List.filter]
  · intro hmiss hdt
    simp [dispatchFrame, runListeners, sendListener, hmiss, hdt]
  · intro hdt
    simp [dispatchFrame, runListeners, sendListener, hdt]

/-- C4 witness: at concrete inputs, a matching frame resolves with its
data field and empties the registry, a frame with a different id leaves
the listener registered, and a null frame only logs. -/
theorem claim4_witness :
    dispatchFrame [(0, sendListener "m")] (some (successFrame (.jstr "m") .jnull))
      = ([], [Effect.resolved "m" .jnull])
    ∧ dispatchFrame [(0, sendListener "m")] (some (successFrame (.jstr "x") .jnull))
      = ([(0, sendListener "m")], [])
    ∧ dispatchFrame [(0, sendListener "m")] (some .jnull)
      = ([(0, sendListener "m")], [Effect.loggedError]) := by
  refine ⟨?_, ?_, ?_⟩
  · exact (claim4_request_one_shot 0 "m" (successFrame (.jstr "m") .jnull)
      (successFrame (.jstr "x") .jnull) .jnull .jnull).1 rfl
  · exact (claim4_request_one_shot 0 "m" (successFrame (.jstr "m") .jnull)
      (successFrame (.jstr "x") .jnull) .jnull .jnull).2.1 rfl rfl
  · exact (claim4_request_one_shot 0 "m" (successFrame (.jstr "m") .jnull)
      (successFrame (.jstr "x") .jnull) .jnull .jnull).2.2.1 rfl

/- ### Claim C5: stream callback and cancellation -/

/-- C5: a subscription listener is invoked once per correlated reply and
stays registered; the cancellation function removes it, after which a
third correlated reply invokes nothing; cancelling again is a no-op. -/
theorem claim5_stream_stop (k : Nat) (msgId : String) (d1 d2 d3 : JSVal) :
    dispatchFrame [(k, streamListener msgId)] (some (successFrame (.jstr msgId) d1))
      = ([(k, streamListener msgId)], [Effect.streamed msgId d1])
    ∧ dispatchFrame [(k, streamListener msgId)] (some (successFrame (.jstr msgId) d2))
      = ([(k, streamListener msgId)], [Effect.streamed msgId d2])
    ∧ removeListenerId [(k, streamListener msgId)] k = []
    ∧ dispatchFrame (removeListenerId [(k, streamListener msgId)] k)
        (some (successFrame (.jstr msgId) d3))
      = ([], [])
    ∧ removeListenerId (removeListenerId [(k, streamListener msgId)] k) k
      = removeListenerId [(k, streamListener msgId)] k := by
  have hrm : removeListenerId [(k, streamListener msgId)] k = [] := by
    simp [removeListenerId, List.filter]
  refine ⟨?_, ?_, hrm, ?_, ?_⟩
  · simp [dispatchFrame, runListeners, streamListener, jsIdEq, getField,
      successFrame, List.find?, destructureThrows]
  · simp [dispatchFrame, runListeners, streamListener, jsIdEq, getField,
      successFrame, List.find?, destructureThrows]
  · rw [hrm]
    rfl
  · rw [hrm]
    rfl

/- ### Claim C7: listener exceptions are isolated -/

/-- The effects of a dispatch depend only on the snapshot, one listener at
a time: removals threaded through the live registry never change which
listeners of the snapshot run or what they produce. -/
theorem runListeners_effects (snap : Registry) (frame : Option JSVal) :
    ∀ reg : Registry,
      (runListeners snap frame reg).2
        = (snap.map (fun p => stepEffects frame p.2)).flatten := by
  induction snap with
  | nil => intro reg; rfl
  | cons hd rest ih =>
    intro reg
    obtain ⟨i, l⟩ := hd
    cases hl : l frame with
    | ok effs rm =>
      simp [runListeners, hl, stepEffects, ih]
    | thrown effs =>
      simp [runListeners, hl, stepEffects, ih]

/-- C7: when any one listener of the registry raises on an inbound frame,
the raise is caught and logged, every listener before and after it is
still invoked on the same frame and contributes exactly its effects, and
the dispatch returns normally. -/
theorem claim7_listener_exception_isolated (pre post : Registry) (i : Nat)
    (l : Listener) (frame : Option JSVal) (effs : List Effect)
    (hthrow : l frame = LStep.thrown effs) :
    (dispatchFrame (pre ++ (i, l) :: post) frame).2
      = (pre.map (fun p => stepEffects frame p.2)).flatten
        ++ (effs ++ [Effect.loggedError])
        ++ (post.map (fun p => stepEffects frame p.2)).flatten := by
  rw [dispatchFrame, runListeners_effects]
  simp [stepEffects, hthrow]

/-- C7 witness: a single listener that raises on a non-JSON frame yields
exactly the logged error and nothing escapes the dispatch. -/
theorem claim7_witness :
    (dispatchFrame [(0, fun _ => LStep.thrown [])] none).2
      = [Effect.loggedError] := by
  simpa using claim7_listener_exception_isolated [] [] 0
    (fun _ => LStep.thrown []) none [] rfl

/- ### Claim C9: Pledge.all -/

/-- A nonempty list has an earliest element. -/
theorem earliest_isSome (l : List (Nat × JSVal)) (h : l ≠ []) :
    ∃ x, earliest l = some x := by
  cases l with
  | nil => exact absurd rfl h
  | cons hd tl =>
    rw [earliest]
    cases earliest tl with
    | none => exact ⟨hd, rfl⟩
    | some y =>
      by_cases hy : y.1 < hd.1 <;> simp [hy]

/-- The earliest element is a member of the list. -/
theorem earliest_mem (l : List (Nat × JSVal)) :
    ∀ x, earliest l = some x → x ∈ l := by
  induction l with
  | nil => intro x h; simp [earliest] at h
  | cons hd tl ih =>
    intro x h
    rw [earliest] at h
    cases he : earliest tl with
    | none =>
      rw [he] at h
      simp only [Option.some.injEq] at h
      subst h
      exact List.mem_cons_self _ _
    | some y =>
      rw [he] at h
      by_cases hy : y.1 < hd.1
      · simp only [hy, if_true, Option.some.injEq] at h
        subst h
        exact List.mem_cons_of_mem hd (ih _ he)
      · simp only [hy, if_false, Option.some.injEq] at h
        subst h
        exact List.mem_cons_self _ _

/-- The earliest element is no later than any member. -/
theorem earliest_min (l : List (Nat × JSVal)) :
    ∀ x, earliest l = some x → ∀ y ∈ l, x.1 ≤ y.1 := by
  induction l with
  | nil => intro x h; simp [earliest] at h
  | cons hd tl ih =>
    intro x h y hy
    rw [earliest] at h
    cases he : earliest tl with
    | none =>
      have htl : tl = [] := by
        cases tl with
        | nil => rfl
        | cons a b =>
          obtain ⟨z, hz⟩ := earliest_isSome (a :: b) (by simp)
          rw [hz] at he
          cases he
      subst htl
      rw [he] at h
      simp only [Option.some.injEq] at h
      subst h
      simp only [List.mem_singleton] at hy
      subst hy
      exact Nat.le_refl _
    | some z =>
      rw [he] at h
      by_cases hz : z.1 < hd.1
      · simp only [hz, if_true, Option.some.injEq] at h
        subst h
        rcases List.mem_cons.mp hy with hh | ht
        · subst hh
          exact Nat.le_of_lt hz
        · exact ih _ he _ ht
      · simp only [hz, if_false, Option.some.injEq] at h
        subst h
        rcases List.mem_cons.mp hy with hh | ht
        · subst hh
          exact Nat.le_refl _
        · exact Nat.le_trans (Nat.le_of_not_lt hz) (ih _ he _ ht)

/-- A rejecting argument contributes its time and reason to the rejection
list. -/
theorem mem_rejectionsOf (items : List AllItem) (it : AllItem) (t : Nat)
    (e : JSVal) (hit : it ∈ items)
    (hrej : itemFate it = some (t, POutcome.rejection e)) :
    (t, e) ∈ rejectionsOf items := by
  induction items with
  | nil => simp at hit
  | cons hd tl ih =>
    rcases List.mem_cons.mp hit with hh | ht
    · subst hh
      rw [rejectionsOf, hrej]
      exact List.mem_cons_self _ _
    · rw [rejectionsOf]
      cases hf : itemFate hd with
      | none => exact ih ht
      | some p =>
        obtain ⟨t2, r⟩ := p
        cases r with
        | value v => exact ih ht
        | rejection e2 => exact List.mem_cons_of_mem _ (ih ht)

/-- When every argument fulfills, there are no rejections and the
fulfillment list carries exactly the fulfilled values in input order. -/
theorem valuesOf_of_all_fulfilled (items : List AllItem)
    (hall : ∀ it ∈ items, ∃ t v, itemFate it = some (t, POutcome.value v)) :
    rejectionsOf items = []
    ∧ ∃ tvs, valuesOf items = some tvs
        ∧ tvs.map (fun p => p.2) = items.map fulfilledValue := by
  induction items with
  | nil => exact ⟨rfl, [], rfl, rfl⟩
  | cons hd tl ih =>
    obtain ⟨t, v, hf⟩ := hall hd (List.mem_cons_self hd tl)
    obtain ⟨hrej, tvs, hv, hmap⟩ :=
      ih (fun it hit => hall it (List.mem_cons_of_mem hd hit))
    refine ⟨?_, (t, v) :: tvs, ?_, ?_⟩
    · rw [rejectionsOf, hf, hrej]
    · rw [valuesOf, hf, hv]
      rfl
    · simp [hmap, fulfilledValue, hf]

/-- C9: Pledge.all fulfills with the fulfilled values in input order once
every argument fulfills, plain values passing through unchanged, and
rejects with the reason of the earliest rejection as soon as any argument
rejects, regardless of what the other arguments eventually do. -/
theorem claim9_all_join (items : List AllItem) :
    ((∀ it ∈ items, ∃ t v, itemFate it = some (t, POutcome.value v)) →
      ∃ T, pledgeAll items = some (T, Except.ok (items.map fulfilledValue)))
    ∧ (∀ v : JSVal, fulfilledValue (AllItem.plain v) = v)
    ∧ ((∃ it ∈ items, ∃ t e, itemFate it = some (t, POutcome.rejection e)) →
      ∃ t e, pledgeAll items = some (t, Except.error e)
        ∧ (t, e) ∈ rejectionsOf items
        ∧ ∀ q ∈ rejectionsOf items, t ≤ q.1) := by
  refine ⟨?_, fun v => rfl, ?_⟩
  · intro hall
    obtain ⟨hrej, tvs, hv, hmap⟩ := valuesOf_of_all_fulfilled items hall
    refine ⟨latestTime tvs, ?_⟩
    simp [pledgeAll, hrej, hv, hmap, earliest]
  · intro ⟨it, hit, t, e, hrej⟩
    have hne : rejectionsOf items ≠ [] := by
      intro hnil
      have hmem := mem_rejectionsOf items it t e hit hrej
      rw [hnil] at hmem
      simp at hmem
    obtain ⟨x, hx⟩ := earliest_isSome _ hne
    refine ⟨x.1, x.2, ?_, ?_, earliest_min _ x hx⟩
    · rw [pledgeAll, hx]
    · exact earliest_mem _ x hx

/-- C9 witness: a pledge plus a plain value fulfill in input order, and a
mix containing a rejecting pledge rejects. -/
theorem claim9_witness :
    pledgeAll [AllItem.pledge (some (3, POutcome.value (JSVal.jstr "a"))),
        AllItem.plain (JSVal.jstr "b")]
      = some (3, Except.ok [JSVal.jstr "a", JSVal.jstr "b"])
    ∧ ∃ t e,
      pledgeAll [AllItem.pledge (some (3, POutcome.value (JSVal.jstr "a"))),
          AllItem.pledge (some (2, POutcome.rejection (JSVal.jstr "boom")))]
        = some (t, Except.error e) := by
  constructor
  · obtain ⟨T, hT⟩ :=
      (claim9_all_join [AllItem.pledge (some (3, POutcome.value (JSVal.jstr "a"))),
        AllItem.plain (JSVal.jstr "b")]).1
        (by
          intro it hit
          rcases List.mem_cons.mp hit with hh | ht
          · exact ⟨3, JSVal.jstr "a", by rw [hh]; rfl⟩
          · simp only [List.mem_singleton] at ht
            exact ⟨0, JSVal.jstr "b", by rw [ht]; rfl⟩)
    have hval : pledgeAll [AllItem.pledge (some (3, POutcome.value (JSVal.jstr "a"))),
        AllItem.plain (JSVal.jstr "b")]
        = some (3, Except.ok [JSVal.jstr "a", JSVal.jstr "b"]) := rfl
    rw [hval] at hT
    obtain rfl : T = 3 := by
      have := hT
      injection this with h1
      injection h1 with h2 h3
      exact h2.symm
    rw [hval]
  · obtain ⟨t, e, h, _, _⟩ :=
      (claim9_all_join [AllItem.pledge (some (3, POutcome.value (JSVal.jstr "a"))),
        AllItem.pledge (some (2, POutcome.rejection (JSVal.jstr "boom")))]).2.2
        ⟨AllItem.pledge (some (2, POutcome.rejection (JSVal.jstr "boom"))),
          by simp, 2, JSVal.jstr "boom", rfl⟩
    exact ⟨t, e, h⟩

/- ### Claim C2: request against an unknown method -/

/-- C2 counterexample: a request for an unregistered method draws the
Method not found error envelope echoing the request id, and dispatching
that envelope to the pending request listener resolves the promise,
carrying undefined data, contrary to the claim that it is never resolved
successfully. -/
theorem claim2_counterexample :
    handleMessage [] (some (normVal (requestEnvelope "m" "nf" .jnull)))
      = .ok [errorFrame "Method not found" (.jstr "m")]
    ∧ (deliverAll [(0, sendListener "m")]
        [errorFrame "Method not found" (.jstr "m")]).2
      = [Effect.resolved "m" .undefined]
    ∧ ¬ (deliverAll [(0, sendListener "m")]
        [errorFrame "Method not found" (.jstr "m")]).2 = [] := by
  refine ⟨rfl, rfl, ?_⟩
  intro hcontra
  have hlist : ([Effect.resolved "m" .undefined] : List Effect) = [] := hcontra
  exact absurd hlist (by simp)

/-- Delivering one error envelope echoing the message id to the pending
request listener resolves the promise with undefined and removes the
listener. -/
theorem deliver_error_to_send (k : Nat) (msgId msg : String) :
    deliverAll [(k, sendListener msgId)] [errorFrame msg (.jstr msgId)]
      = ([], [Effect.resolved msgId .undefined]) := by
  have hn : normVal (errorFrame msg (.jstr msgId))
      = errorFrame msg (.jstr msgId) := rfl
  have hobj : destructureThrows (errorFrame msg (.jstr msgId)) = false := rfl
  have hidf : getField (errorFrame msg (.jstr msgId)) "id" = .jstr msgId := rfl
  have hdf : getField (errorFrame msg (.jstr msgId)) "data" = .undefined := rfl
  simp [deliverAll, dispatchFrame, runListeners, sendListener, hn, hobj, hidf,
    hdf, jsIdEq, removeListenerId, List.filter]

/-- C2 amended: for every request whose method is a nonempty string that
is neither registered nor found on the prototype chain of the method
table, the server replies with the Method not found error envelope
echoing the request id, and the pending request promise IS resolved
successfully, carrying undefined data: the client listener matches the
echoed id alone and reads the absent data field of the error envelope as
undefined. An unregistered method naming an inherited Object.prototype
function is invoked without replying, so no envelope is sent and the
promise stays pending; the unregistered name of the non-callable
prototype accessor draws Method handler error echoing the id, which
again resolves the promise with undefined. -/
theorem claim2_amended_resolves_undefined (tbl : MethodTable) (k : Nat)
    (msgId method : String) (payload : JSVal)
    (hm : (method == "") = false) :
    (methodListGet tbl method = .absent →
      handleMessage tbl (some (normVal (requestEnvelope msgId method payload)))
        = .ok [errorFrame "Method not found" (.jstr msgId)]
      ∧ deliverAll [(k, sendListener msgId)]
          [errorFrame "Method not found" (.jstr msgId)]
        = ([], [Effect.resolved msgId .undefined]))
    ∧ (methodListGet tbl method = .inheritedFunction →
      handleMessage tbl (some (normVal (requestEnvelope msgId method payload)))
        = .ok []
      ∧ deliverAll [(k, sendListener msgId)] []
        = ([(k, sendListener msgId)], []))
    ∧ (methodListGet tbl method = .inheritedNonFunction →
      handleMessage tbl (some (normVal (requestEnvelope msgId method payload)))
        = .ok [errorFrame "Method handler error" (.jstr msgId)]
      ∧ deliverAll [(k, sendListener msgId)]
          [errorFrame "Method handler error" (.jstr msgId)]
        = ([], [Effect.resolved msgId .undefined])) := by
  have hobj : destructureThrows (normVal (requestEnvelope msgId method payload))
      = false := rfl
  have hmethod : getField (normVal (requestEnvelope msgId method payload)) "method"
      = .jstr method := rfl
  have hid : getField (normVal (requestEnvelope msgId method payload)) "id"
      = .jstr msgId := rfl
  refine ⟨fun hlo => ⟨?_, ?_⟩, fun hlo => ⟨?_, rfl⟩, fun hlo => ⟨?_, ?_⟩⟩
  · simp [handleMessage, hobj, hmethod, hid, methodCheckFails, hm, methodName, hlo]
  · exact deliver_error_to_send k msgId "Method not found"
  · simp [handleMessage, hobj, hmethod, hid, methodCheckFails, hm, methodName, hlo]
  · simp [handleMessage, hobj, hmethod, hid, methodCheckFails, hm, methodName, hlo]
  · exact deliver_error_to_send k msgId "Method handler error"

/-- C2 witness: the amended statement at concrete inputs, for an absent
method name and for the inherited toString name. -/
theorem claim2_witness :
    (handleMessage [] (some (normVal (requestEnvelope "w2" "missing" .jnull)))
      = .ok [errorFrame "Method not found" (.jstr "w2")]
    ∧ deliverAll [(1, sendListener "w2")]
        [errorFrame "Method not found" (.jstr "w2")]
      = ([], [Effect.resolved "w2" .undefined]))
    ∧ (handleMessage [] (some (normVal (requestEnvelope "w2" "toString" .jnull)))
      = .ok []
    ∧ deliverAll [(1, sendListener "w2")] []
      = ([(1, sendListener "w2")], [])) :=
  ⟨(claim2_amended_resolves_undefined [] 1 "w2" "missing" .jnull rfl).1 rfl,
    (claim2_amended_resolves_undefined [] 1 "w2" "toString" .jnull rfl).2.1 rfl⟩

/- ### Claim C3: echo round trip -/

/-- A value whose undefined test is true is the undefined value. -/
theorem isUndefinedEqUndefined (v : JSVal) (h : v.isUndefined = true) : v = .undefined := by
  cases v <;> simp_all [JSVal.isUndefined]

/-- Delivering one success frame to the pending request listener resolves
with the JSON round trip of the data written by the server. -/
theorem deliver_success_to_send (k : Nat) (msgId : String) (d : JSVal) :
    deliverAll [(k, sendListener msgId)] [successFrame (.jstr msgId) d]
      = ([], [Effect.resolved msgId (normTop d)]) := by
  cases hd : d.isUndefined with
  | true =>
    have hdu : d = .undefined := isUndefinedEqUndefined d hd
    subst hdu
    have h1 : normVal (successFrame (.jstr msgId) .undefined)
        = .jobj [("id", .jstr msgId)] := rfl
    have h2 : getField (.jobj [("id", .jstr msgId)]) "id" = .jstr msgId := rfl
    have h3 : getField (.jobj [("id", .jstr msgId)]) "data" = .undefined := rfl
    have hnt : normTop JSVal.undefined = JSVal.undefined := rfl
    simp [deliverAll, dispatchFrame, runListeners, sendListener, h1, h2, h3,
      jsIdEq, removeListenerId, List.filter, hnt, destructureThrows]
  | false =>
    have h1 : normVal (successFrame (.jstr msgId) d)
        = .jobj [("id", .jstr msgId), ("data", normVal d)] := by
      simp only [successFrame, normVal, normFields]
      rw [show JSVal.isUndefined (JSVal.jstr msgId) = false from rfl, hd]
      simp
    have h2 : getField (.jobj [("id", .jstr msgId), ("data", normVal d)]) "id"
        = .jstr msgId := rfl
    have h3 : getField (.jobj [("id", .jstr msgId), ("data", normVal d)]) "data"
        = normVal d := rfl
    have hnt : normTop d = normVal d := by
      rw [normTop, hd]
      rfl
    simp [deliverAll, dispatchFrame, runListeners, sendListener, h1, h2, h3,
      jsIdEq, removeListenerId, List.filter, hnt, destructureThrows]

/-- The server reply to a round-tripped echo request is one success frame
echoing the id and carrying the round-tripped payload. -/
theorem server_echo (msgId : String) (p : JSVal) :
    handleMessage [("echo", echoHandler)]
        (some (normVal (requestEnvelope msgId "echo" p)))
      = .ok [successFrame (.jstr msgId) (normTop p)] := by
  have hp : getField (normVal (requestEnvelope msgId "echo" p)) "payload"
      = normTop p := by
    cases hu : p.isUndefined with
    | true =>
      have := isUndefinedEqUndefined p hu
      subst this
      rfl
    | false =>
      have henv : normVal (requestEnvelope msgId "echo" p)
          = .jobj [("id", .jstr msgId), ("method", .jstr "echo"),
              ("payload", normVal p)] := by
        rw [requestEnvelope, normVal, normFields, normFields, normFields]
        rw [show JSVal.isUndefined (.jstr msgId) = false from rfl]
        rw [show JSVal.isUndefined (.jstr "echo") = false from rfl]
        rw [hu]
        rfl
      rw [henv]
      rw [show getField (.jobj [("id", .jstr msgId), ("method", .jstr "echo"),
            ("payload", normVal p)]) "payload" = normVal p from rfl]
      rw [normTop, hu]
      rfl
  have base : handleMessage [("echo", echoHandler)]
      (some (normVal (requestEnvelope msgId "echo" p)))
      = .ok [successFrame (.jstr msgId)
          (getField (normVal (requestEnvelope msgId "echo" p)) "payload")] := rfl
  rw [base, hp]

/-- C3 counterexample: an array payload holding one undefined element is
not preserved by the echo round trip; the promise resolves with an array
holding null instead, which is not deep-equal to the payload sent. -/
theorem claim3_counterexample :
    (echoRoundTrip "m" (.jarr [.undefined])).2
      = [Effect.resolved "m" (.jarr [.jnull])]
    ∧ JSVal.jarr [.jnull] ≠ JSVal.jarr [.undefined] := by
  refine ⟨rfl, ?_⟩
  intro h
  simp at h

/-- C3 amended: the echo round trip resolves the pending promise with the
JSON normalization of the payload (undefined-valued object fields dropped,
undefined array elements turned to null, an absent payload preserved as
absent); whenever the payload is a fixed point of that normalization, in
particular for absent, null, scalars and undefined-free objects, the round
trip preserves it exactly. -/
theorem claim3_amended_echo_roundtrip (msgId : String) (p : JSVal) :
    (echoRoundTrip msgId p).2 = [Effect.resolved msgId (normTop p)]
    ∧ (normTop p = p → (echoRoundTrip msgId p).2 = [Effect.resolved msgId p]) := by
  have h1 : (echoRoundTrip msgId p).2 = [Effect.resolved msgId (normTop p)] := by
    rw [echoRoundTrip, server_echo msgId p]
    show (deliverAll [(0, sendListener msgId)] [successFrame (.jstr msgId) (normTop p)]).2
      = [Effect.resolved msgId (normTop p)]
    rw [deliver_success_to_send 0 msgId (normTop p)]
    rw [normTop_idem]
  exact ⟨h1, fun hs => by rw [h1, hs]⟩

/-- C3 witness: a null payload is a normalization fixed point and round
trips unchanged. -/
theorem claim3_witness :
    (echoRoundTrip "w3" .jnull).2 = [Effect.resolved "w3" .jnull] :=
  (claim3_amended_echo_roundtrip "w3" .jnull).2 rfl

/- ### Claim C1: server error envelope cases -/

/-- C1 counterexample: a parsed frame whose method field is the empty
string is a present string method absent from the (empty) method table,
so by the claim the first matching case would be Method not found; the
code instead replies Missing or invalid method, because the guard also
rejects the falsy empty string. A frame parsing to null makes
handleMessage throw instead of sending any envelope. And the method table
is a plain object literal, so the unregistered method toString reads as a
truthy inherited function that is invoked and sends no envelope at all,
while the unregistered name of the prototype accessor reads as a truthy
non-function whose invocation throws, drawing Method handler error, where
the claim predicts Method not found for both. -/
theorem claim1_counterexample :
    getField (.jobj [("id", .jstr "x"), ("method", .jstr ""), ("payload", .jnull)])
        "method" = .jstr ""
    ∧ lookupMethod [] "" = none
    ∧ handleMessage []
        (some (.jobj [("id", .jstr "x"), ("method", .jstr ""), ("payload", .jnull)]))
      = .ok [errorFrame "Missing or invalid method" (.jstr "x")]
    ∧ handleMessage []
        (some (.jobj [("id", .jstr "x"), ("method", .jstr ""), ("payload", .jnull)]))
      ≠ .ok [errorFrame "Method not found" (.jstr "x")]
    ∧ handleMessage [] (some .jnull) = .error ()
    ∧ lookupMethod [] "toString" = none
    ∧ handleMessage [] (some (.jobj [("id", .jstr "x"), ("method", .jstr "toString")]))
      = .ok []
    ∧ handleMessage [] (some (.jobj [("id", .jstr "x"), ("method", .jstr "toString")]))
      ≠ .ok [errorFrame "Method not found" (.jstr "x")]
    ∧ lookupMethod [] "__proto__" = none
    ∧ handleMessage [] (some (.jobj [("id", .jstr "x"), ("method", .jstr "__proto__")]))
      = .ok [errorFrame "Method handler error" (.jstr "x")] := by
  refine ⟨rfl, rfl, rfl, ?_, rfl, rfl, rfl, ?_, rfl, rfl⟩
  · intro hcontra
    have heq : Except.ok (ε := Unit)
        [errorFrame "Missing or invalid method" (.jstr "x")]
        = Except.ok [errorFrame "Method not found" (.jstr "x")] := hcontra
    simp only [Except.ok.injEq, List.cons.injEq, and_true, errorFrame,
      JSVal.jobj.injEq, Prod.mk.injEq, JSVal.jstr.injEq, true_and] at heq
    exact absurd heq (by decide)
  · intro hcontra
    have heq : Except.ok (ε := Unit) ([] : List JSVal)
        = Except.ok [errorFrame "Method not found" (.jstr "x")] := hcontra
    simp only [Except.ok.injEq] at heq
    exact absurd heq (by simp)

/-- The success envelope is never the error form. -/
theorem isErrorEnvelope_successFrame (id d : JSVal) :
    isErrorEnvelope (successFrame id d) = false := rfl

/-- A list of success envelopes holds no error envelope. -/
theorem countP_success_zero (id : JSVal) (replies : List JSVal) :
    ((replies.map (successFrame id)).countP isErrorEnvelope) = 0 := by
  rw [List.countP_eq_zero]
  intro a ha
  obtain ⟨d, _, rfl⟩ := List.mem_map.mp ha
  simp [isErrorEnvelope_successFrame]

/-- C1 amended: the server replies with at most one error envelope chosen
by the first matching case in order, where the second case also fires on
an empty-string method (the guard tests falsiness, not only absence and
type), a frame parsing to null is excluded (it raises instead), and the
method lookup is the truthy property access on a plain object literal,
prototype chain included: parse failure gives Malformed JSON with
undefined id; a method that is not a nonempty string gives Missing or
invalid method echoing the id; a nonempty-string method that is neither
registered nor inherited gives Method not found; a registered handler
whose invocation raises gives Method handler error after any success
replies already sent; an unregistered method naming an inherited
Object.prototype function is invoked and sends no envelope; and the
unregistered name of the non-callable prototype accessor draws Method
handler error. -/
theorem claim1_amended_error_cases (tbl : MethodTable) (v : JSVal) (h : Handler) :
    (handleMessage tbl none = .ok [errorFrame "Malformed JSON" .undefined]
      ∧ ([errorFrame "Malformed JSON" .undefined].countP isErrorEnvelope) = 1)
    ∧ (destructureThrows v = false →
        methodCheckFails (getField v "method") = true →
        handleMessage tbl (some v)
          = .ok [errorFrame "Missing or invalid method" (getField v "id")]
        ∧ ([errorFrame "Missing or invalid method" (getField v "id")].countP
            isErrorEnvelope) = 1)
    ∧ (destructureThrows v = false →
        methodCheckFails (getField v "method") = false →
        methodListGet tbl (methodName (getField v "method")) = .absent →
        handleMessage tbl (some v)
          = .ok [errorFrame "Method not found" (getField v "id")]
        ∧ ([errorFrame "Method not found" (getField v "id")].countP
            isErrorEnvelope) = 1)
    ∧ (destructureThrows v = false →
        methodCheckFails (getField v "method") = false →
        methodListGet tbl (methodName (getField v "method")) = .registered h →
        (h (getField v "payload")).throws = true →
        handleMessage tbl (some v)
          = .ok ((h (getField v "payload")).replies.map
                (successFrame (getField v "id"))
              ++ [errorFrame "Method handler error" (getField v "id")])
        ∧ (((h (getField v "payload")).replies.map
              (successFrame (getField v "id"))
            ++ [errorFrame "Method handler error" (getField v "id")]).countP
              isErrorEnvelope) = 1)
    ∧ (destructureThrows v = false →
        methodCheckFails (getField v "method") = false →
        methodListGet tbl (methodName (getField v "method")) = .inheritedFunction →
        handleMessage tbl (some v) = .ok []
        ∧ (([] : List JSVal).countP isErrorEnvelope) = 0)
    ∧ (destructureThrows v = false →
        methodCheckFails (getField v "method") = false →
        methodListGet tbl (methodName (getField v "method")) = .inheritedNonFunction →
        handleMessage tbl (some v)
          = .ok [errorFrame "Method handler error" (getField v "id")]
        ∧ ([errorFrame "Method handler error" (getField v "id")].countP
            isErrorEnvelope) = 1) := by
  refine ⟨⟨rfl, rfl⟩, ?_, ?_, ?_, ?_, ?_⟩
  · intro hdt hmc
    constructor
    · simp [handleMessage, hdt, hmc]
    · simp [List.countP_cons, isErrorEnvelope, errorFrame]
  · intro hdt hmc hlo
    constructor
    · simp [handleMessage, hdt, hmc, hlo]
    · simp [List.countP_cons, isErrorEnvelope, errorFrame]
  · intro hdt hmc hlo hth
    constructor
    · simp [handleMessage, hdt, hmc, hlo, hth]
    · rw [List.countP_append, countP_success_zero]
      simp [List.countP_cons, isErrorEnvelope, errorFrame]
  · intro hdt hmc hlo
    constructor
    · simp [handleMessage, hdt, hmc, hlo]
    · rfl
  · intro hdt hmc hlo
    constructor
    · simp [handleMessage, hdt, hmc, hlo]
    · simp [List.countP_cons, isErrorEnvelope, errorFrame]

/-- C1 witness: concrete frames hit the missing-method, absent-method and
inherited-function cases with the predicted envelopes. -/
theorem claim1_witness :
    handleMessage [] (some (.jobj [("id", .jstr "x")]))
      = .ok [errorFrame "Missing or invalid method" (.jstr "x")]
    ∧ handleMessage [] (some (.jobj [("id", .jstr "x"), ("method", .jstr "nf")]))
      = .ok [errorFrame "Method not found" (.jstr "x")]
    ∧ handleMessage []
        (some (.jobj [("id", .jstr "x"), ("method", .jstr "valueOf")]))
      = .ok [] := by
  refine ⟨?_, ?_, ?_⟩
  · exact ((claim1_amended_error_cases [] (.jobj [("id", .jstr "x")])
      echoHandler).2.1 rfl rfl).1
  · exact ((claim1_amended_error_cases []
      (.jobj [("id", .jstr "x"), ("method", .jstr "nf")]) echoHandler).2.2.1
      rfl rfl rfl).1
  · exact ((claim1_amended_error_cases []
      (.jobj [("id", .jstr "x"), ("method", .jstr "valueOf")]) echoHandler).2.2.2.2.1
      rfl rfl rfl).1

/- ### Claim C10: replies to id-less requests carry no id key -/

/-- An error envelope with undefined id serializes without an id key and
parses back with an undefined id field. -/
theorem id_dropped_error (m : String) :
    ("id" ∉ objKeys (normVal (errorFrame m .undefined)))
    ∧ getField (normVal (errorFrame m .undefined)) "id" = .undefined := by
  constructor
  · rw [show objKeys (normVal (errorFrame m .undefined)) = ["error", "message"] from rfl]
    decide
  · rfl

/-- A success envelope with undefined id serializes without an id key and
parses back with an undefined id field. -/
theorem id_dropped_success (d : JSVal) :
    ("id" ∉ objKeys (normVal (successFrame .undefined d)))
    ∧ getField (normVal (successFrame .undefined d)) "id" = .undefined := by
  cases hd : d.isUndefined with
  | true =>
    have hdu : d = .undefined := isUndefinedEqUndefined d hd
    subst hdu
    constructor
    · rw [show objKeys (normVal (successFrame .undefined .undefined)) = [] from rfl]
      decide
    · rfl
  | false =>
    have h1 : normVal (successFrame .undefined d) = .jobj [("data", normVal d)] := by
      simp only [successFrame, normVal, normFields]
      rw [show JSVal.isUndefined JSVal.undefined = true from rfl, hd]
      simp
    rw [h1]
    constructor
    · rw [show objKeys (.jobj [("data", normVal d)]) = ["data"] from rfl]
      decide
    · rfl

/-- C10: every frame the server writes back for a message whose parsed id
is undefined, including every Malformed JSON reply, reaches the wire with
no id key at all, and the client parses it as a frame whose id field is
undefined rather than null. -/
theorem claim10_id_key_dropped (tbl : MethodTable) (msg : Option JSVal)
    (frames : List JSVal)
    (hok : handleMessage tbl msg = .ok frames)
    (hid : parsedId msg = .undefined) :
    ∀ f ∈ frames,
      ("id" ∉ objKeys (normVal f)) ∧ getField (normVal f) "id" = .undefined := by
  intro f hf
  cases msg with
  | none =>
    simp only [handleMessage, Except.ok.injEq] at hok
    subst hok
    simp only [List.mem_singleton] at hf
    subst hf
    exact id_dropped_error "Malformed JSON"
  | some v =>
    have hid2 : getField v "id" = .undefined := hid
    simp only [handleMessage] at hok
    by_cases hdt : destructureThrows v = true
    · rw [if_pos hdt] at hok
      exact absurd hok (by simp)
    · rw [if_neg hdt] at hok
      rw [hid2] at hok
      by_cases hmc : methodCheckFails (getField v "method") = true
      · rw [if_pos hmc, Except.ok.injEq] at hok
        subst hok
        simp only [List.mem_singleton] at hf
        subst hf
        exact id_dropped_error "Missing or invalid method"
      · rw [if_neg hmc] at hok
        cases hlo : methodListGet tbl (methodName (getField v "method")) with
        | absent =>
          rw [hlo] at hok
          simp only [Except.ok.injEq] at hok
          subst hok
          simp only [List.mem_singleton] at hf
          subst hf
          exact id_dropped_error "Method not found"
        | inheritedFunction =>
          rw [hlo] at hok
          simp only [Except.ok.injEq] at hok
          subst hok
          simp at hf
        | inheritedNonFunction =>
          rw [hlo] at hok
          simp only [Except.ok.injEq] at hok
          subst hok
          simp only [List.mem_singleton] at hf
          subst hf
          exact id_dropped_error "Method handler error"
        | registered hh =>
          rw [hlo] at hok
          simp only [Except.ok.injEq] at hok
          subst hok
          rcases List.mem_append.mp hf with hmem | hmem
          · obtain ⟨d, _, rfl⟩ := List.mem_map.mp hmem
            exact id_dropped_success d
          · cases hth : (hh (getField v "payload")).throws with
            | true =>
              simp only [hth, if_true, List.mem_singleton] at hmem
              subst hmem
              exact id_dropped_error "Method handler error"
            | false =>
              simp [hth] at hmem

/-- C10 witness: a request frame carrying no id at all for an unregistered
method draws a Method not found reply whose wire form has no id key. -/
theorem claim10_witness :
    handleMessage [] (some (.jobj [("method", .jstr "nf")]))
      = .ok [errorFrame "Method not found" .undefined]
    ∧ ("id" ∉ objKeys (normVal (errorFrame "Method not found" .undefined)))
    ∧ getField (normVal (errorFrame "Method not found" .undefined)) "id"
      = .undefined := by
  refine ⟨rfl, ?_, ?_⟩
  · exact (claim10_id_key_dropped [] (some (.jobj [("method", .jstr "nf")]))
      [errorFrame "Method not found" .undefined] rfl rfl
      (errorFrame "Method not found" .undefined) (List.mem_singleton.mpr rfl)).1
  · exact (claim10_id_key_dropped [] (some (.jobj [("method", .jstr "nf")]))
      [errorFrame "Method not found" .undefined] rfl rfl
      (errorFrame "Method not found" .undefined) (List.mem_singleton.mpr rfl)).2
